import Mathlib

/-!
Verification of `sptest.py` — a console-command execution-time measurement
script.  The script resolves a run configuration from command-line options
and/or a JSON file (`SPscript.__init__`), executes the command `runs` times
(sequentially or in parallel threads), and reports aggregate statistics
over the per-run timings (`SPscript.execute`).

Shallow embedding conventions:

* `datetime` values are modelled as integer microsecond timestamps and
  `timedelta` values as integer microsecond counts: CPython's `datetime`
  and `timedelta` are exact fixed-point values with microsecond resolution.
* `timedelta / float(n)` (line 198 of the source, `n = self.runs`) and
  `timedelta * 0.5` (line 202) are, by CPython's `datetime` implementation,
  computed as exact integer arithmetic on microseconds followed by rounding
  to the nearest microsecond with ties to even, via `_divide_and_round`
  (`float.as_integer_ratio` of `float(n)` is `(n, 1)` and of `0.5` is
  `(1, 2)`, both exact).  `divide_and_round` below is that function.
* Fallible Python code is modelled with explicit outcome types; `sys.exit`
  (whose `SystemExit` passes through the `except Exception` handler at the
  bottom of the script) is distinguished from an ordinary uncaught
  exception (which that handler converts into exit code 1).
-/

/-! ## CPython `datetime._divide_and_round`

```
def _divide_and_round(a, b):
    q, r = divmod(a, b)
    r *= 2
    greater_than_half = r > b if b > 0 else r < b
    if greater_than_half or r == b and q % 2 == 1:
        q += 1
    return q
```

Python `divmod` is floor division, i.e. `Int.fdiv`/`Int.fmod`; Python `%`
on integers is `Int.fmod`. -/

def divide_and_round (a b : Int) : Int :=
  let q := Int.fdiv a b
  let r := (Int.fmod a b) * 2
  let greater_than_half := if 0 < b then b < r else r < b
  if greater_than_half ∨ (r = b ∧ Int.fmod q 2 = 1) then q + 1 else q

/-- For a positive divisor, `divide_and_round` is the floor quotient or the
floor quotient plus one, and the `+ 1` case only arises when the remainder
is non-zero. -/
theorem divide_and_round_cases {a b : Int} (hb : 0 < b) :
    divide_and_round a b = Int.fdiv a b ∨
      (divide_and_round a b = Int.fdiv a b + 1 ∧ 0 < Int.fmod a b) := by
  unfold divide_and_round
  set q := Int.fdiv a b with hq
  set r := Int.fmod a b with hr
  simp only [if_pos hb]
  by_cases hgt : b < r * 2 ∨ (r * 2 = b ∧ Int.fmod q 2 = 1)
  · right
    rw [if_pos hgt]
    refine ⟨rfl, ?_⟩
    have hr0 : 0 ≤ r := Int.fmod_nonneg' a hb
    rcases hgt with h | ⟨h, _⟩ <;> omega
  · left
    rw [if_neg hgt]

/-- Exact case: when `b` divides `a` (and `b > 0`), rounding changes
nothing and the result is the exact quotient. -/
theorem divide_and_round_exact {a b : Int} (hb : 0 < b) (hd : b ∣ a) :
    divide_and_round a b = Int.fdiv a b ∧ divide_and_round a b * b = a := by
  have hm : Int.fmod a b = 0 := by
    rw [Int.fmod_eq_emod a (le_of_lt hb)]
    exact Int.emod_eq_zero_of_dvd hd
  have hda : b * Int.fdiv a b + Int.fmod a b = a := Int.fdiv_add_fmod a b
  unfold divide_and_round
  simp only [if_pos hb, hm]
  have hne : ¬ ((b < 0 * 2) ∨ (0 * 2 = b ∧ Int.fmod (Int.fdiv a b) 2 = 1)) := by
    push_neg
    constructor
    · omega
    · intro h; omega
  rw [if_neg hne]
  constructor
  · rfl
  · rw [hm] at hda; linarith [hda]

/-- Sandwich bound: if `p * b ≤ a ≤ q * b` with `b > 0`, the rounded
quotient lies between `p` and `q`. -/
theorem divide_and_round_bounds {a b p q : Int} (hb : 0 < b)
    (hp : p * b ≤ a) (hq : a ≤ q * b) :
    p ≤ divide_and_round a b ∧ divide_and_round a b ≤ q := by
  have hda : b * Int.fdiv a b + Int.fmod a b = a := Int.fdiv_add_fmod a b
  have hr0 : 0 ≤ Int.fmod a b := Int.fmod_nonneg' a hb
  have hrb : Int.fmod a b < b := Int.fmod_lt_of_pos a hb
  have hp' : b * p ≤ a := by
    have hc : p * b = b * p := mul_comm p b
    linarith
  have hq' : a ≤ b * q := by
    have hc : q * b = b * q := mul_comm q b
    linarith
  have hlow : p ≤ Int.fdiv a b := by
    by_contra hcon
    push_neg at hcon
    have h1 : Int.fdiv a b + 1 ≤ p := by omega
    have h3 : b * (Int.fdiv a b + 1) ≤ b * p :=
      mul_le_mul_of_nonneg_left h1 (le_of_lt hb)
    have h4 : b * (Int.fdiv a b + 1) = b * Int.fdiv a b + b := by ring
    linarith
  rcases divide_and_round_cases hb (a := a) with h | ⟨h, hpos⟩
  · refine ⟨by omega, ?_⟩
    rw [h]
    by_contra hcon
    push_neg at hcon
    have h1 : q + 1 ≤ Int.fdiv a b := by omega
    have h2 : b * (q + 1) ≤ b * Int.fdiv a b :=
      mul_le_mul_of_nonneg_left h1 (le_of_lt hb)
    have h4 : b * (q + 1) = b * q + b := by ring
    linarith
  · refine ⟨by omega, ?_⟩
    rw [h]
    by_contra hcon
    push_neg at hcon
    have h1 : q ≤ Int.fdiv a b := by omega
    have h2 : b * q ≤ b * Int.fdiv a b :=
      mul_le_mul_of_nonneg_left h1 (le_of_lt hb)
    linarith

/-- Rounding a doubled value halves exactly. -/
theorem divide_and_round_two_mul (a : Int) :
    divide_and_round (a + a) 2 = a := by
  have hd : (2 : Int) ∣ (a + a) := ⟨a, by ring⟩
  have h := (divide_and_round_exact (a := a + a) (b := 2) (by omega) hd).2
  omega

/-- Cast to `ℚ`: in the exact case the result is the true rational
quotient. -/
theorem divide_and_round_eq_ratCast {a b : Int} (hb : 0 < b) (hd : b ∣ a) :
    ((divide_and_round a b : ℚ)) = (a : ℚ) / (b : ℚ) := by
  have h := (divide_and_round_exact hb hd).2
  have hb0 : ((b : ℚ)) ≠ 0 := by
    exact_mod_cast (by omega : b ≠ 0)
  field_simp
  exact_mod_cast h

/-! ## Data model of `SPscript.execute`'s results processing

One `Timing` is one entry of `self.timings` (source lines 120–128): a dict
with keys `e_code`, `start`, `finish`, `time`.  Timestamps (`start`,
`finish`) and durations (`time`) are integer microsecond counts (see the
header comment).  In `run_command` (lines 134–147) `time` is set to
`finish - start` and `e_code` to the child's return code. -/

structure Timing where
  e_code : Int
  start  : Int
  finish : Int
  time   : Int
deriving Repr, DecidableEq

/-- `datetime(year=MINYEAR, month=1, day=1)` as microseconds since itself:
the sentinel used at source lines 119 and 182. -/
def DT_MIN : Int := 0

/-- `datetime(year=MAXYEAR, month=12, day=31)` (midnight) in microseconds
since `DT_MIN`: day ordinal 3652059, i.e. 3652058 whole days (source line
181). -/
def DT_MAX : Int := 3652058 * 86400 * 1000000

/-- `timedelta.min = timedelta(days=-999999999)` in microseconds (source
line 185). -/
def TD_MIN : Int := -999999999 * 86400 * 1000000

/-- `timedelta.max = timedelta(days=999999999, hours=23, minutes=59,
seconds=59, microseconds=999999)` in microseconds (source line 184). -/
def TD_MAX : Int := 999999999 * 86400 * 1000000 + 86399999999

/-- Accumulator of the results-processing loop, source lines 181–193. -/
structure StatsAcc where
  min_start  : Int
  max_finish : Int
  sum_time   : Int
  min_time   : Int
  max_time   : Int
  error_cnt  : Nat
deriving Repr, DecidableEq

/-- One iteration of the loop `for timing in self.timings` (lines 187–193).
Each branch mirrors one `if` statement of the source. -/
def statsStep (acc : StatsAcc) (t : Timing) : StatsAcc :=
  { min_start  := if t.start < acc.min_start then t.start else acc.min_start
    max_finish := if acc.max_finish < t.finish then t.finish else acc.max_finish
    sum_time   := acc.sum_time + t.time
    min_time   := if t.time < acc.min_time then t.time else acc.min_time
    max_time   := if acc.max_time < t.time then t.time else acc.max_time
    error_cnt  := if t.e_code ≠ 0 then acc.error_cnt + 1 else acc.error_cnt }

/-- Initial accumulator values, source lines 181–186. -/
def statsStart : StatsAcc :=
  { min_start  := DT_MAX
    max_finish := DT_MIN
    sum_time   := 0
    min_time   := TD_MAX
    max_time   := TD_MIN
    error_cnt  := 0 }

/-- The results-processing loop over `self.timings`. -/
def results (ts : List Timing) : StatsAcc := ts.foldl statsStep statsStart

/-- `times = sorted(list(map(lambda t: t['time'], self.timings)))`, source
line 199.  Python's `sorted` produces an ascending stable sort; on integer
durations any correct ascending sort yields the same list. -/
def sortedTimes (ts : List Timing) : List Int :=
  List.insertionSort (fun a b => a ≤ b) (ts.map (fun t => t.time))

/-- The summary block printed by `execute` (source lines 194–204). -/
structure Report where
  total_time : Int
  min_time   : Int
  max_time   : Int
  average    : Int
  median     : Int
  error_cnt  : Nat
  warn       : Bool
deriving Repr, DecidableEq

/-- The aggregate statistics reported by `execute` (source lines 180–204).

* `total_time = max_finish - min_start` (line 194);
* `average` is `sum_time / float(self.runs)` (line 198), i.e.
  `divide_and_round` of the microsecond sum by `runs`;
* `median` is `(times[mid_pos] + times[~mid_pos]) * 0.5` (lines 200–202)
  where `mid_pos = self.runs // 2` and `times[~mid_pos]` is Python
  negative indexing: index `len(times) - 1 - mid_pos`;
* `warn` records whether the non-zero-exit-code warning line is printed
  (lines 203–204).

`execute` always runs with `self.runs = len(self.timings) ≥ 1` (the list
is built with `range(self.runs)` at lines 120–128 and `runs < 1` is
rejected during configuration), so here `runs` is taken to be
`ts.length`; the list indexing of line 202 is then in bounds and `getD`'s
default is never used. -/
def report (ts : List Timing) : Report :=
  let s := results ts
  let times := sortedTimes ts
  let n := ts.length
  let mid_pos := n / 2
  { total_time := s.max_finish - s.min_start
    min_time   := s.min_time
    max_time   := s.max_time
    average    := divide_and_round s.sum_time (n : Int)
    median     := divide_and_round (times.getD mid_pos 0 + times.getD (n - 1 - mid_pos) 0) 2
    error_cnt  := s.error_cnt
    warn       := s.error_cnt != 0 }

/-! ## Data model of `SPscript.__init__` (configuration resolution)

`__init__` (source lines 72–128) parses command-line options with
`getopt`, optionally replaces them with the key/value pairs of a JSON
file, folds them into the four configuration attributes, and validates.
`getopt` and `json.loads` are Python standard-library routines outside
this repository; the model takes their outcomes as inputs (a parsed
option list or a `GetoptError`; a `FileResult` per filename). -/

/-- A decoded JSON value as produced by `json.loads`.  JSON numbers are
modelled as integers (fractional JSON literals are out of the model's
scope); `True`/`False`/`None` and nested arrays/objects are included
because Python's `int()` and truthiness distinguish them. -/
inductive JValue where
  | jstr  (s : String)
  | jint  (n : Int)
  | jbool (b : Bool)
  | jnull
  | jarr  (xs : List JValue)
  | jobj  (kvs : List (String × JValue))

/-- Python truthiness (`if not self.command`, source line 116): empty
string, zero, `False`, `None`, and empty containers are falsy. -/
def JValue.truthy : JValue → Bool
  | .jstr s  => !s.data.isEmpty
  | .jint n  => n != 0
  | .jbool b => b
  | .jnull   => false
  | .jarr xs => !xs.isEmpty
  | .jobj kvs => !kvs.isEmpty

/-- ASCII uppercase of one character (Python `str.upper` restricted to
ASCII; non-ASCII keys are out of the model's scope). -/
def upChar (c : Char) : Char :=
  if 'a' ≤ c ∧ c ≤ 'z' then Char.ofNat (c.toNat - 32) else c

/-- Python `opt.upper()` (source lines 101–104). -/
def upperStr (s : String) : String := ⟨s.data.map upChar⟩

/-- Strip leading and trailing whitespace (Python `int()` ignores it). -/
def trimChars (cs : List Char) : List Char :=
  ((cs.dropWhile Char.isWhitespace).reverse.dropWhile Char.isWhitespace).reverse

/-- Decimal digit run to a number, `none` if empty or non-digit. -/
def digitsVal (cs : List Char) : Option Nat :=
  if cs = [] then none
  else if cs.all (fun c => c.isDigit) then
    some (cs.foldl (fun a c => a * 10 + (c.toNat - 48)) 0)
  else none

/-- Python `int()` applied to a `str`: optional surrounding whitespace,
optional sign, decimal digits; anything else raises `ValueError`.
(Digit-grouping underscores and non-ASCII digits are out of the model's
scope.) -/
def int_of_string (s : String) : Option Int :=
  match trimChars s.data with
  | '-' :: rest => (digitsVal rest).map (fun n => -(n : Int))
  | '+' :: rest => (digitsVal rest).map (fun n => (n : Int))
  | cs => (digitsVal cs).map (fun n => (n : Int))

/-- Outcome of Python `int(value)` on a decoded JSON value (source lines
102–103): strings parse or raise `ValueError`; integers pass through;
booleans are `int` subclasses (1/0); `None`, lists and dicts raise
`TypeError`. -/
inductive PyIntResult where
  | ok (n : Int)
  | valueError
  | typeError
deriving Repr, DecidableEq

def pyInt : JValue → PyIntResult
  | .jstr s => match int_of_string s with
    | some n => .ok n
    | none => .valueError
  | .jint n => .ok n
  | .jbool b => .ok (if b then 1 else 0)
  | .jnull => .typeError
  | .jarr _ => .typeError
  | .jobj _ => .typeError

/-- The four configuration attributes set at source lines 74–77.
`command` is kept as a `JValue` because a JSON `COMMAND` value of any
type is stored unchanged (line 101); command-line values are strings. -/
structure Config where
  mode_prl : Bool
  command  : JValue
  runs     : Int
  pause    : Int

/-- Defaults, source lines 74–77 with `_DEFAULT_RUNS = 8` and
`_DEFAULT_PAUSE = 5` (lines 21–22). -/
def defaultConfig : Config :=
  { mode_prl := false, command := .jstr "", runs := 8, pause := 5 }

/-- Exceptions an option-processing step can raise: `ValueError` (caught
at line 110, leading to `exit(2)`) or `TypeError` (uncaught in
`__init__`, escaping to the top-level handler). -/
inductive StepErr where
  | valueError
  | typeError
deriving Repr, DecidableEq

/-- Outcome of the `for opt, value in opts` loop (source lines 100–109). -/
inductive LoopOut where
  | done (cfg : Config)      -- loop finished normally
  | helpExit                 -- `exit(0)` reached via `-h`/`--help`
  | err (e : StepErr)        -- exception raised inside the loop

/-- One iteration of the loop, mirroring the `if`/`elif` chain of source
lines 101–107 followed by the range check of lines 108–109 (which runs
after every iteration and raises `ValueError` when violated). -/
def procOpt (cfg : Config) (opt : String) (value : JValue) : LoopOut :=
  if opt = "-c" ∨ upperStr opt = "COMMAND" then
    checkAfter { cfg with command := value }
  else if opt = "-n" ∨ upperStr opt = "TIMES" then
    match pyInt value with
    | .ok n => checkAfter { cfg with runs := n }
    | .valueError => .err .valueError
    | .typeError => .err .typeError
  else if opt = "-w" ∨ upperStr opt = "SECONDS" then
    match pyInt value with
    | .ok n => checkAfter { cfg with pause := n }
    | .valueError => .err .valueError
    | .typeError => .err .typeError
  else if opt = "-p" ∨ upperStr opt = "PARALLEL" then
    checkAfter { cfg with mode_prl := true }
  else if opt = "-h" ∨ opt = "--help" then
    .helpExit
  else
    checkAfter cfg
where
  /-- `if self.runs < 1 or self.pause < 0: raise ValueError` (lines
  108–109). -/
  checkAfter (c : Config) : LoopOut :=
    if c.runs < 1 ∨ c.pause < 0 then .err .valueError else .done c

/-- The whole loop over the effective option list. -/
def procOpts (cfg : Config) : List (String × JValue) → LoopOut
  | [] => .done cfg
  | (opt, value) :: rest =>
    match procOpt cfg opt value with
    | .done c => procOpts c rest
    | .helpExit => .helpExit
    | .err e => .err e

/-- What the file system yields for a given positional filename, covering
source lines 85–98: `isfile` false; `open`/`read` raising; `json.loads`
raising; or a successfully decoded JSON value. -/
inductive FileResult where
  | missing
  | unreadable
  | unparsable
  | parsed (v : JValue)

/-- Outcome of `getopt(cmdl_params, "c:n:w:ph", ["help"])` (line 80):
either a `GetoptError` or the parsed `(opts, args)` pair.  Option values
produced by `getopt` are strings. -/
inductive GetoptResult where
  | err
  | ok (opts : List (String × String)) (args : List String)

/-- How `SPscript(argv[1:])` terminates, as observed by the `__main__`
block (lines 206–213): normal return with a resolved configuration;
`sys.exit(code)` (a `SystemExit`, which the `except Exception` handler
does not catch, so the process exits with `code`); or an ordinary
uncaught exception (caught at top level, exit code 1). -/
inductive InitOutcome where
  | ok (cfg : Config)
  | exited (code : Nat)
  | raised

/-- Command-line options enter the processing loop with string values. -/
def strOpts (opts : List (String × String)) : List (String × JValue) :=
  opts.map (fun p => (p.1, .jstr p.2))

/-- `SPscript.__init__`, source lines 72–128.

* `GetoptError` → message + `exit(2)` (lines 113–115).
* `not opts and not args` → `no_command()` → `exit(2)` (lines 81–82).
* `args` non-empty: the first positional is treated as a JSON file
  (lines 83–99); a missing, unreadable or unparsable file exits 2; a
  decoded non-object value makes `json_data.items()` raise
  `AttributeError`, which no handler catches; a decoded object replaces
  `opts` entirely with its key/value pairs.
* The option loop (lines 100–109) follows, with `ValueError` caught and
  turned into `exit(2)` (lines 110–112) and `TypeError` escaping.
* Finally `if not self.command: self.no_command()` → `exit(2)`
  (lines 116–117). -/
def spInit (g : GetoptResult) (fs : String → FileResult) : InitOutcome :=
  match g with
  | .err => .exited 2
  | .ok opts0 args =>
    if opts0 = [] ∧ args = [] then .exited 2
    else
      match args with
      | [] => procLoop (strOpts opts0)
      | filename :: _ =>
        match fs filename with
        | .missing => .exited 2
        | .unreadable => .exited 2
        | .unparsable => .exited 2
        | .parsed (.jobj kvs) => procLoop kvs
        | .parsed _ => .raised
where
  /-- Source lines 100–117: the option loop with its exception handlers,
  followed by the final empty-command check.  In the source this code sits
  once after the file handling; it runs on the command-line options when
  no positional argument is present and on the file's key/value pairs
  otherwise. -/
  procLoop (opts : List (String × JValue)) : InitOutcome :=
    match procOpts defaultConfig opts with
    | .helpExit => .exited 0
    | .err .valueError => .exited 2
    | .err .typeError => .raised
    | .done cfg =>
      if cfg.command.truthy then .ok cfg else .exited 2

/-- Observable behaviour of one whole process run: final exit status and
whether `execute()` was reached (when it is, the command is launched
`runs ≥ 1` times). -/
structure MainResult where
  code     : Nat
  executed : Bool
deriving Repr, DecidableEq

/-- The `__main__` block, source lines 206–213: construct `SPscript`, run
`execute()`, exit 0; a `SystemExit` passes through; any other exception
is caught and converted to exit code 1.  The statistics pass of
`execute` is total on a non-empty timing list, so a successful
construction reaches `exit(0)`. -/
def spMain (g : GetoptResult) (fs : String → FileResult) : MainResult :=
  match spInit g fs with
  | .ok _ => { code := 0, executed := true }
  | .exited c => { code := c, executed := false }
  | .raised => { code := 1, executed := false }

/-- A file system with no usable file, for invocations that never touch
one. -/
def fsNone : String → FileResult := fun _ => .missing

/-! ## Helper lemmas: fold characterizations of the results loop -/

/-- Running minimum with the source's strict-compare update. -/
def foldMin (a : Int) (l : List Int) : Int :=
  l.foldl (fun m x => if x < m then x else m) a

/-- Running maximum with the source's strict-compare update. -/
def foldMax (a : Int) (l : List Int) : Int :=
  l.foldl (fun m x => if m < x then x else m) a

theorem foldMin_le_init (l : List Int) (a : Int) : foldMin a l ≤ a := by
  induction l generalizing a with
  | nil => simp [foldMin]
  | cons x xs ih =>
    simp only [foldMin, List.foldl_cons]
    by_cases hxa : x < a
    · rw [if_pos hxa]
      have h := ih x
      simp only [foldMin] at h
      omega
    · rw [if_neg hxa]
      exact ih a

theorem foldMin_le_mem (l : List Int) (a : Int) :
    ∀ x ∈ l, foldMin a l ≤ x := by
  induction l generalizing a with
  | nil => intro x hx; cases hx
  | cons y ys ih =>
    intro x hx
    simp only [foldMin, List.foldl_cons]
    rcases List.mem_cons.mp hx with h | h
    · subst h
      have h1 := foldMin_le_init ys (if x < a then x else a)
      simp only [foldMin] at h1
      by_cases hxa : x < a
      · rw [if_pos hxa] at h1 ⊢; omega
      · rw [if_neg hxa] at h1 ⊢; omega
    · exact ih (if y < a then y else a) x h

theorem foldMin_eq_init_or_mem (l : List Int) (a : Int) :
    foldMin a l = a ∨ foldMin a l ∈ l := by
  induction l generalizing a with
  | nil => left; rfl
  | cons y ys ih =>
    simp only [foldMin, List.foldl_cons]
    by_cases hya : y < a
    · rw [if_pos hya]
      rcases ih y with h | h
      · simp only [foldMin] at h
        right; rw [h]; exact List.mem_cons_self y ys
      · simp only [foldMin] at h
        right; exact List.mem_cons_of_mem y h
    · rw [if_neg hya]
      rcases ih a with h | h
      · simp only [foldMin] at h
        left; exact h
      · simp only [foldMin] at h
        right; exact List.mem_cons_of_mem y h

theorem foldMax_le_init (l : List Int) (a : Int) : a ≤ foldMax a l := by
  induction l generalizing a with
  | nil => simp [foldMax]
  | cons x xs ih =>
    simp only [foldMax, List.foldl_cons]
    by_cases hxa : a < x
    · rw [if_pos hxa]
      have h := ih x
      simp only [foldMax] at h
      omega
    · rw [if_neg hxa]
      exact ih a

theorem foldMax_le_mem (l : List Int) (a : Int) :
    ∀ x ∈ l, x ≤ foldMax a l := by
  induction l generalizing a with
  | nil => intro x hx; cases hx
  | cons y ys ih =>
    intro x hx
    simp only [foldMax, List.foldl_cons]
    rcases List.mem_cons.mp hx with h | h
    · subst h
      have h1 := foldMax_le_init ys (if a < x then x else a)
      simp only [foldMax] at h1
      by_cases hxa : a < x
      · rw [if_pos hxa] at h1 ⊢; omega
      · rw [if_neg hxa] at h1 ⊢; omega
    · exact ih (if a < y then y else a) x h

theorem foldMax_eq_init_or_mem (l : List Int) (a : Int) :
    foldMax a l = a ∨ foldMax a l ∈ l := by
  induction l generalizing a with
  | nil => left; rfl
  | cons y ys ih =>
    simp only [foldMax, List.foldl_cons]
    by_cases hya : a < y
    · rw [if_pos hya]
      rcases ih y with h | h
      · simp only [foldMax] at h
        right; rw [h]; exact List.mem_cons_self y ys
      · simp only [foldMax] at h
        right; exact List.mem_cons_of_mem y h
    · rw [if_neg hya]
      rcases ih a with h | h
      · simp only [foldMax] at h
        left; exact h
      · simp only [foldMax] at h
        right; exact List.mem_cons_of_mem y h

/-- The results-processing loop computes, field by field, the running
min/max/sum/count of the record fields starting from the sentinel
accumulator. -/
theorem results_foldl (ts : List Timing) (acc : StatsAcc) :
    ts.foldl statsStep acc =
      { min_start  := foldMin acc.min_start (ts.map (fun t => t.start))
        max_finish := foldMax acc.max_finish (ts.map (fun t => t.finish))
        sum_time   := acc.sum_time + (ts.map (fun t => t.time)).sum
        min_time   := foldMin acc.min_time (ts.map (fun t => t.time))
        max_time   := foldMax acc.max_time (ts.map (fun t => t.time))
        error_cnt  := acc.error_cnt + ts.countP (fun t => t.e_code != 0) } := by
  induction ts generalizing acc with
  | nil => simp [foldMin, foldMax]
  | cons t ts ih =>
    simp only [List.foldl_cons]
    rw [ih]
    simp only [statsStep, List.map_cons, List.countP_cons, List.sum_cons,
      foldMin, foldMax, List.foldl_cons, StatsAcc.mk.injEq]
    refine ⟨trivial, trivial, by omega, trivial, trivial, ?_⟩
    by_cases h : t.e_code = 0
    · simp [h]
    · simp [h]
      omega

/-- A running minimum started from an upper bound of a non-empty list is
the true minimum: a member that bounds every element from below. -/
theorem foldMin_is_min {l : List Int} {a : Int} (hne : l ≠ [])
    (hb : ∀ x ∈ l, x ≤ a) :
    foldMin a l ∈ l ∧ ∀ x ∈ l, foldMin a l ≤ x := by
  refine ⟨?_, foldMin_le_mem l a⟩
  rcases foldMin_eq_init_or_mem l a with h | h
  · rcases List.exists_mem_of_ne_nil l hne with ⟨x, hx⟩
    have h1 : foldMin a l ≤ x := foldMin_le_mem l a x hx
    have h2 : x ≤ a := hb x hx
    have h3 : foldMin a l = x := by omega
    rw [h3]; exact hx
  · exact h

/-- Dual: a running maximum started from a lower bound of a non-empty list
is the true maximum. -/
theorem foldMax_is_max {l : List Int} {a : Int} (hne : l ≠ [])
    (hb : ∀ x ∈ l, a ≤ x) :
    foldMax a l ∈ l ∧ ∀ x ∈ l, x ≤ foldMax a l := by
  refine ⟨?_, foldMax_le_mem l a⟩
  rcases foldMax_eq_init_or_mem l a with h | h
  · rcases List.exists_mem_of_ne_nil l hne with ⟨x, hx⟩
    have h1 : x ≤ foldMax a l := foldMax_le_mem l a x hx
    have h2 : a ≤ x := hb x hx
    have h3 : foldMax a l = x := by omega
    rw [h3]; exact hx
  · exact h

/-- Sum of a list bounded below elementwise. -/
theorem list_sum_lower (l : List Int) (p : Int) (hb : ∀ x ∈ l, p ≤ x) :
    p * l.length ≤ l.sum := by
  induction l with
  | nil => simp
  | cons x xs ih =>
    simp only [List.sum_cons, List.length_cons]
    have h1 : p ≤ x := hb x (List.mem_cons_self x xs)
    have h2 : p * xs.length ≤ xs.sum :=
      ih (fun y hy => hb y (List.mem_cons_of_mem x hy))
    have h3 : p * ((xs.length : Int) + 1) = p * xs.length + p := by ring
    push_cast
    push_cast at h2
    linarith

/-- Sum of a list bounded above elementwise. -/
theorem list_sum_upper (l : List Int) (q : Int) (hb : ∀ x ∈ l, x ≤ q) :
    l.sum ≤ q * l.length := by
  induction l with
  | nil => simp
  | cons x xs ih =>
    simp only [List.sum_cons, List.length_cons]
    have h1 : x ≤ q := hb x (List.mem_cons_self x xs)
    have h2 : xs.sum ≤ q * xs.length :=
      ih (fun y hy => hb y (List.mem_cons_of_mem x hy))
    have h3 : q * ((xs.length : Int) + 1) = q * xs.length + q := by ring
    push_cast
    push_cast at h2
    linarith

/-- The two median indices are in bounds for a non-empty record list. -/
theorem sortedTimes_length (ts : List Timing) :
    (sortedTimes ts).length = ts.length := by
  unfold sortedTimes
  rw [(List.perm_insertionSort (fun a b => a ≤ b) (ts.map (fun t => t.time))).length_eq]
  exact List.length_map ts _

theorem sortedTimes_mem {ts : List Timing} {x : Int} :
    x ∈ sortedTimes ts ↔ x ∈ ts.map (fun t => t.time) := by
  unfold sortedTimes
  exact (List.perm_insertionSort (fun a b => a ≤ b) (ts.map (fun t => t.time))).mem_iff

/-! ## Helper lemmas: option processing -/

/-- The per-iteration range check only lets valid configurations
through. -/
theorem checkAfter_done {c c' : Config} (h : procOpt.checkAfter c = .done c') :
    c' = c ∧ 1 ≤ c.runs ∧ 0 ≤ c.pause := by
  unfold procOpt.checkAfter at h
  split at h
  · exact LoopOut.noConfusion h
  · injection h with h1
    subst h1
    refine ⟨rfl, by omega, by omega⟩

/-- A step that finishes normally leaves a valid configuration. -/
theorem procOpt_done_valid {cfg c : Config} {o : String} {v : JValue}
    (h : procOpt cfg o v = .done c) : 1 ≤ c.runs ∧ 0 ≤ c.pause := by
  unfold procOpt at h
  repeat' split at h
  all_goals
    first
      | exact LoopOut.noConfusion h
      | (obtain ⟨h1, h2, h3⟩ := checkAfter_done h; subst h1; exact ⟨h2, h3⟩)

/-- A help option is recognized by the `elif` chain whatever the current
configuration and value are. -/
theorem procOpt_help (cfg : Config) (o : String) (v : JValue)
    (h : o = "-h" ∨ o = "--help") : procOpt cfg o v = .helpExit := by
  rcases h with h | h <;> subst h <;> rfl

/-- Processing an appended option list processes the first part first and
continues with the second only on normal completion. -/
theorem procOpts_append (cfg : Config) (l1 l2 : List (String × JValue)) :
    procOpts cfg (l1 ++ l2) =
      match procOpts cfg l1 with
      | .done c => procOpts c l2
      | .helpExit => .helpExit
      | .err e => .err e := by
  induction l1 generalizing cfg with
  | nil => simp [procOpts]
  | cons kv rest ih =>
    obtain ⟨opt, value⟩ := kv
    rw [List.cons_append]
    cases h : procOpt cfg opt value with
    | done c => simp only [procOpts, h]; exact ih c
    | helpExit => simp only [procOpts, h]
    | err e => simp only [procOpts, h]

/-- `procLoop` only exits with status 0 (help) or 2. -/
theorem procLoop_exited {opts : List (String × JValue)} {c : Nat}
    (h : spInit.procLoop opts = .exited c) : c = 0 ∨ c = 2 := by
  unfold spInit.procLoop at h
  repeat' split at h
  all_goals
    first
      | exact InitOutcome.noConfusion h
      | (injection h with h1; omega)

/-- `__init__` only calls `sys.exit` with status 0 or 2. -/
theorem spInit_exited {g : GetoptResult} {fs : String → FileResult} {c : Nat}
    (h : spInit g fs = .exited c) : c = 0 ∨ c = 2 := by
  unfold spInit at h
  repeat' split at h
  all_goals
    first
      | exact InitOutcome.noConfusion h
      | (injection h with h1; omega)
      | exact procLoop_exited h

/-- The report, with every field written out via the fold
characterization. -/
theorem report_def (ts : List Timing) :
    report ts =
      { total_time := foldMax DT_MIN (ts.map (fun t => t.finish)) -
          foldMin DT_MAX (ts.map (fun t => t.start))
        min_time   := foldMin TD_MAX (ts.map (fun t => t.time))
        max_time   := foldMax TD_MIN (ts.map (fun t => t.time))
        average    := divide_and_round ((ts.map (fun t => t.time)).sum) (ts.length : Int)
        median     := divide_and_round ((sortedTimes ts).getD (ts.length / 2) 0 +
          (sortedTimes ts).getD (ts.length - 1 - ts.length / 2) 0) 2
        error_cnt  := ts.countP (fun t => t.e_code != 0)
        warn       := ts.countP (fun t => t.e_code != 0) != 0 } := by
  unfold report results
  rw [results_foldl]
  simp [statsStart]

/-- Shape of `__init__` when a positional filename is present: the
command-line options are irrelevant, everything depends on the file. -/
theorem spInit_args_cons (opts : List (String × String)) (f : String)
    (rest : List String) (fs : String → FileResult) :
    spInit (.ok opts (f :: rest)) fs =
      match fs f with
      | .missing => .exited 2
      | .unreadable => .exited 2
      | .unparsable => .exited 2
      | .parsed (.jobj kvs) => spInit.procLoop kvs
      | .parsed _ => .raised := by
  show (if opts = [] ∧ f :: rest = [] then InitOutcome.exited 2
    else match f :: rest with
      | [] => spInit.procLoop (strOpts opts)
      | filename :: _ =>
        match fs filename with
        | .missing => .exited 2
        | .unreadable => .exited 2
        | .unparsable => .exited 2
        | .parsed (.jobj kvs) => spInit.procLoop kvs
        | .parsed _ => .raised) = _
  rw [if_neg (by simp)]

/-- Shape of `__init__` with options but no positional argument. -/
theorem spInit_no_args (opts : List (String × String))
    (fs : String → FileResult) (hne : opts ≠ []) :
    spInit (.ok opts []) fs = spInit.procLoop (strOpts opts) := by
  show (if opts = [] ∧ ([] : List String) = [] then InitOutcome.exited 2
    else spInit.procLoop (strOpts opts)) = _
  rw [if_neg (by simp [hne])]

theorem procLoop_done_truthy {opts : List (String × JValue)} {cfg : Config}
    (h : procOpts defaultConfig opts = .done cfg)
    (ht : cfg.command.truthy = true) : spInit.procLoop opts = .ok cfg := by
  unfold spInit.procLoop
  rw [h]
  simp [ht]

theorem procLoop_done_falsy {opts : List (String × JValue)} {cfg : Config}
    (h : procOpts defaultConfig opts = .done cfg)
    (ht : cfg.command.truthy = false) : spInit.procLoop opts = .exited 2 := by
  unfold spInit.procLoop
  rw [h]
  simp [ht]

theorem procLoop_valueError {opts : List (String × JValue)}
    (h : procOpts defaultConfig opts = .err .valueError) :
    spInit.procLoop opts = .exited 2 := by
  unfold spInit.procLoop
  rw [h]

theorem procLoop_typeError {opts : List (String × JValue)}
    (h : procOpts defaultConfig opts = .err .typeError) :
    spInit.procLoop opts = .raised := by
  unfold spInit.procLoop
  rw [h]

theorem procLoop_help {opts : List (String × JValue)}
    (h : procOpts defaultConfig opts = .helpExit) :
    spInit.procLoop opts = .exited 0 := by
  unfold spInit.procLoop
  rw [h]

/-- The option names the `elif` chain of lines 101–107 reacts to: the four
documented JSON keys (case-insensitively) and the literal command-line
option strings. -/
def recognizedKey (k : String) : Bool :=
  k == "-c" || upperStr k == "COMMAND" || k == "-n" || upperStr k == "TIMES" ||
  k == "-w" || upperStr k == "SECONDS" || k == "-p" || upperStr k == "PARALLEL" ||
  k == "-h" || k == "--help"

/-- An unrecognized key falls through every branch of the chain; only the
range check of lines 108–109 runs. -/
theorem procOpt_unrecognized {k : String} (hk : recognizedKey k = false)
    (cfg : Config) (v : JValue) :
    procOpt cfg k v = procOpt.checkAfter cfg := by
  simp only [recognizedKey, Bool.or_eq_false_iff, beq_eq_false_iff_ne, ne_eq] at hk
  obtain ⟨⟨⟨⟨⟨⟨⟨⟨⟨h1, h2⟩, h3⟩, h4⟩, h5⟩, h6⟩, h7⟩, h8⟩, h9⟩, h10⟩ := hk
  unfold procOpt
  rw [if_neg (not_or.mpr ⟨h1, h2⟩), if_neg (not_or.mpr ⟨h3, h4⟩),
    if_neg (not_or.mpr ⟨h5, h6⟩), if_neg (not_or.mpr ⟨h7, h8⟩),
    if_neg (not_or.mpr ⟨h9, h10⟩)]

/-- Dropping all unrecognized keys does not change the outcome of the
option loop, provided the incoming configuration passes the range check
(as the defaults do). -/
theorem procOpts_filter_recognized (kvs : List (String × JValue)) (cfg : Config)
    (hv : 1 ≤ cfg.runs ∧ 0 ≤ cfg.pause) :
    procOpts cfg (kvs.filter (fun kv => recognizedKey kv.1)) = procOpts cfg kvs := by
  induction kvs generalizing cfg with
  | nil => rfl
  | cons kv rest ih =>
    obtain ⟨k, v⟩ := kv
    by_cases hk : recognizedKey k = true
    · rw [List.filter_cons_of_pos (by simpa using hk)]
      cases h : procOpt cfg k v with
      | done c =>
        simp only [procOpts, h]
        exact ih c (procOpt_done_valid h)
      | helpExit => simp only [procOpts, h]
      | err e => simp only [procOpts, h]
    · have hk' : recognizedKey k = false := by
        simpa using hk
      rw [List.filter_cons_of_neg (by simpa using hk')]
      have hstep : procOpt cfg k v = .done cfg := by
        rw [procOpt_unrecognized hk']
        unfold procOpt.checkAfter
        rw [if_neg (by omega)]
      rw [ih cfg hv]
      simp only [procOpts, hstep]

/-! ## Concrete file-system fixtures for the scenario theorems -/

/-- `{"COMMAND": "echo b", "SECONDS": 1}` — the override scenario file. -/
def fsEchoB : String → FileResult :=
  fun _ => .parsed (.jobj [("COMMAND", .jstr "echo b"), ("SECONDS", .jint 1)])

/-- `{"COMMAND": "x", "TIMES": null}`. -/
def fsNullTimes : String → FileResult :=
  fun _ => .parsed (.jobj [("COMMAND", .jstr "x"), ("TIMES", .jnull)])

/-- `{"COMMAND": "x", "SECONDS": null}`. -/
def fsNullSecs : String → FileResult :=
  fun _ => .parsed (.jobj [("COMMAND", .jstr "x"), ("SECONDS", .jnull)])

/-- `{"COMMAND": "x", "-h": null}`. -/
def fsHelpKey : String → FileResult :=
  fun _ => .parsed (.jobj [("COMMAND", .jstr "x"), ("-h", .jnull)])

/-- `{"COMMAND": "x"}`. -/
def fsCmdOnly : String → FileResult :=
  fun _ => .parsed (.jobj [("COMMAND", .jstr "x")])

/-- `{"COMMAND": "x", "FOO": null}` — an unrecognized key. -/
def fsFoo : String → FileResult :=
  fun _ => .parsed (.jobj [("COMMAND", .jstr "x"), ("FOO", .jnull)])

/-! ## Claims -/

/-- C7 (confirmed): for every completed run set, the reported `errorCount`
equals exactly the number of records whose recorded exit status is
non-zero, and the warning line is emitted exactly when this count is
non-zero. -/
theorem C7_error_count (ts : List Timing) :
    (report ts).error_cnt = ts.countP (fun t => t.e_code != 0) ∧
      ((report ts).warn = true ↔ (report ts).error_cnt ≠ 0) := by
  rw [report_def]
  exact ⟨rfl, by simp⟩

/-- C6 (confirmed): for every completed non-empty run set whose timestamps
lie within the `datetime` range, the reported total span equals the
maximum `endTime` over all records minus the minimum `startTime` over all
records (`M` and `m` below are characterized as that maximum and that
minimum). -/
theorem C6_total_span (ts : List Timing) (hne : ts ≠ [])
    (hb : ∀ t ∈ ts, DT_MIN ≤ t.start ∧ t.start ≤ DT_MAX ∧
      DT_MIN ≤ t.finish ∧ t.finish ≤ DT_MAX)
    (M m : Int)
    (hM : M ∈ ts.map (fun t => t.finish))
    (hMub : ∀ x ∈ ts.map (fun t => t.finish), x ≤ M)
    (hm : m ∈ ts.map (fun t => t.start))
    (hmlb : ∀ x ∈ ts.map (fun t => t.start), m ≤ x) :
    (report ts).total_time = M - m := by
  rw [report_def]
  show foldMax DT_MIN (ts.map (fun t => t.finish)) -
    foldMin DT_MAX (ts.map (fun t => t.start)) = M - m
  have hfne : ts.map (fun t => t.finish) ≠ [] :=
    fun hcon => hne (List.map_eq_nil_iff.mp hcon)
  have hsne : ts.map (fun t => t.start) ≠ [] :=
    fun hcon => hne (List.map_eq_nil_iff.mp hcon)
  have hfbound : ∀ x ∈ ts.map (fun t => t.finish), DT_MIN ≤ x := by
    intro x hx
    obtain ⟨t, ht, rfl⟩ := List.mem_map.mp hx
    exact (hb t ht).2.2.1
  have hsbound : ∀ x ∈ ts.map (fun t => t.start), x ≤ DT_MAX := by
    intro x hx
    obtain ⟨t, ht, rfl⟩ := List.mem_map.mp hx
    exact (hb t ht).2.1
  obtain ⟨hfmem, hfub⟩ := foldMax_is_max hfne hfbound
  obtain ⟨hsmem, hslb⟩ := foldMin_is_min hsne hsbound
  have hMeq : foldMax DT_MIN (ts.map (fun t => t.finish)) = M := by
    have h1 := hMub _ hfmem
    have h2 := hfub M hM
    omega
  have hmeq : foldMin DT_MAX (ts.map (fun t => t.start)) = m := by
    have h1 := hmlb _ hsmem
    have h2 := hslb m hm
    omega
  omega

/-- Witness for C6 at a concrete two-record run set: span `9 - 2 = 7`. -/
theorem C6_total_span_witness :
    (report [⟨0, 5, 9, 4⟩, ⟨1, 2, 7, 5⟩]).total_time = 9 - 2 :=
  C6_total_span [⟨0, 5, 9, 4⟩, ⟨1, 2, 7, 5⟩] (by simp)
    (by decide) 9 2 (by decide) (by decide) (by decide) (by decide)

/-- C8 (corrected): the reported average is the sum of the durations
divided by the record count rounded to the nearest microsecond (ties to
even) — the `timedelta / float` semantics of source line 198 — and it
equals the exact rational quotient exactly when the count divides the
sum. -/
theorem C8_average (ts : List Timing) (hne : ts ≠ []) :
    (report ts).average =
      divide_and_round ((ts.map (fun t => t.time)).sum) (ts.length : Int) ∧
    ((ts.length : Int) ∣ (ts.map (fun t => t.time)).sum →
      ((report ts).average : ℚ) =
        (((ts.map (fun t => t.time)).sum : ℚ)) / ((ts.length : ℚ))) := by
  have hpos : 0 < (ts.length : Int) := by
    have := List.length_pos.mpr hne
    omega
  rw [report_def]
  refine ⟨rfl, fun hd => ?_⟩
  show ((divide_and_round ((ts.map (fun t => t.time)).sum) (ts.length : Int) : ℚ)) = _
  rw [divide_and_round_eq_ratCast hpos hd]
  norm_num
  rfl

/-- Witness for C8 at durations `[2, 4]`: average `3`, and the exact
quotient is attained since `2 ∣ 6`. -/
theorem C8_average_witness :
    (report [⟨0, 0, 2, 2⟩, ⟨0, 2, 6, 4⟩]).average =
      divide_and_round (([⟨0, 0, 2, 2⟩, ⟨0, 2, 6, 4⟩] : List Timing).map
        (fun t => t.time)).sum (([⟨0, 0, 2, 2⟩, ⟨0, 2, 6, 4⟩] : List Timing).length : Int) ∧
    ((([⟨0, 0, 2, 2⟩, ⟨0, 2, 6, 4⟩] : List Timing).length : Int) ∣
        (([⟨0, 0, 2, 2⟩, ⟨0, 2, 6, 4⟩] : List Timing).map (fun t => t.time)).sum →
      ((report [⟨0, 0, 2, 2⟩, ⟨0, 2, 6, 4⟩]).average : ℚ) =
        (((([⟨0, 0, 2, 2⟩, ⟨0, 2, 6, 4⟩] : List Timing).map (fun t => t.time)).sum : ℚ)) /
          ((([⟨0, 0, 2, 2⟩, ⟨0, 2, 6, 4⟩] : List Timing).length : ℚ))) :=
  C8_average [⟨0, 0, 2, 2⟩, ⟨0, 2, 6, 4⟩] (by simp)

/-- Counterexample for C8 as stated: with durations `[0, 0, 1]` the code
reports an average of `0` microseconds, not the exact `1/3`. -/
theorem C8_average_cex :
    (report [⟨0, 0, 0, 0⟩, ⟨0, 1, 1, 0⟩, ⟨0, 10, 11, 1⟩]).average = 0 ∧
    ((report [⟨0, 0, 0, 0⟩, ⟨0, 1, 1, 0⟩, ⟨0, 10, 11, 1⟩]).average : ℚ) ≠
      (((([⟨0, 0, 0, 0⟩, ⟨0, 1, 1, 0⟩, ⟨0, 10, 11, 1⟩] : List Timing).map
        (fun t => t.time)).sum : ℚ)) /
        ((([⟨0, 0, 0, 0⟩, ⟨0, 1, 1, 0⟩, ⟨0, 10, 11, 1⟩] : List Timing).length : ℚ)) := by
  constructor
  · rfl
  · norm_num [show (report [⟨0, 0, 0, 0⟩, ⟨0, 1, 1, 0⟩, ⟨0, 10, 11, 1⟩]).average = 0 from rfl,
      show (([⟨0, 0, 0, 0⟩, ⟨0, 1, 1, 0⟩, ⟨0, 10, 11, 1⟩] : List Timing).map
        (fun t => t.time)).sum = 1 from rfl,
      show (([⟨0, 0, 0, 0⟩, ⟨0, 1, 1, 0⟩, ⟨0, 10, 11, 1⟩] : List Timing).length) = 3 from rfl]

/-- C9 (confirmed): for every completed non-empty run set (durations lie
in the `timedelta` range, as they always do), the reported fastest and
slowest are the minimum and maximum per-run durations, and
`fastest ≤ average ≤ slowest` and `fastest ≤ median ≤ slowest`. -/
theorem C9_ordering (ts : List Timing) (hne : ts ≠ [])
    (hb : ∀ t ∈ ts, TD_MIN ≤ t.time ∧ t.time ≤ TD_MAX) :
    ((report ts).min_time ∈ ts.map (fun t => t.time) ∧
      ∀ x ∈ ts.map (fun t => t.time), (report ts).min_time ≤ x) ∧
    ((report ts).max_time ∈ ts.map (fun t => t.time) ∧
      ∀ x ∈ ts.map (fun t => t.time), x ≤ (report ts).max_time) ∧
    ((report ts).min_time ≤ (report ts).average ∧
      (report ts).average ≤ (report ts).max_time) ∧
    ((report ts).min_time ≤ (report ts).median ∧
      (report ts).median ≤ (report ts).max_time) := by
  have hmin : (report ts).min_time = foldMin TD_MAX (ts.map (fun t => t.time)) := by
    rw [report_def]
  have hmax : (report ts).max_time = foldMax TD_MIN (ts.map (fun t => t.time)) := by
    rw [report_def]
  have havg : (report ts).average =
      divide_and_round ((ts.map (fun t => t.time)).sum) (ts.length : Int) := by
    rw [report_def]
  have hmed : (report ts).median =
      divide_and_round ((sortedTimes ts).getD (ts.length / 2) 0 +
        (sortedTimes ts).getD (ts.length - 1 - ts.length / 2) 0) 2 := by
    rw [report_def]
  rw [hmin, hmax, havg, hmed]
  have htne : ts.map (fun t => t.time) ≠ [] :=
    fun hcon => hne (List.map_eq_nil_iff.mp hcon)
  have hub : ∀ x ∈ ts.map (fun t => t.time), x ≤ TD_MAX := by
    intro x hx
    obtain ⟨t, ht, rfl⟩ := List.mem_map.mp hx
    exact (hb t ht).2
  have hlb : ∀ x ∈ ts.map (fun t => t.time), TD_MIN ≤ x := by
    intro x hx
    obtain ⟨t, ht, rfl⟩ := List.mem_map.mp hx
    exact (hb t ht).1
  obtain ⟨hminmem, hminle⟩ := foldMin_is_min htne hub
  obtain ⟨hmaxmem, hmaxge⟩ := foldMax_is_max htne hlb
  have hn : 1 ≤ ts.length := List.length_pos.mpr hne
  have hlen : ((ts.map (fun t => t.time)).length : Int) = (ts.length : Int) := by
    rw [List.length_map]
  refine ⟨⟨hminmem, hminle⟩, ⟨hmaxmem, hmaxge⟩, ?_, ?_⟩
  · have h1 := list_sum_lower (ts.map (fun t => t.time)) _ hminle
    have h2 := list_sum_upper (ts.map (fun t => t.time)) _ hmaxge
    rw [hlen] at h1 h2
    exact divide_and_round_bounds (by omega) h1 h2
  · have hslen : (sortedTimes ts).length = ts.length := sortedTimes_length ts
    have hmidlt : ts.length / 2 < (sortedTimes ts).length := by
      rw [hslen]; omega
    have hmirlt : ts.length - 1 - ts.length / 2 < (sortedTimes ts).length := by
      rw [hslen]; omega
    have hamem : (sortedTimes ts).getD (ts.length / 2) 0 ∈ ts.map (fun t => t.time) := by
      rw [List.getD_eq_getElem _ _ hmidlt]
      exact sortedTimes_mem.mp (List.getElem_mem _)
    have hbmem : (sortedTimes ts).getD (ts.length - 1 - ts.length / 2) 0 ∈
        ts.map (fun t => t.time) := by
      rw [List.getD_eq_getElem _ _ hmirlt]
      exact sortedTimes_mem.mp (List.getElem_mem _)
    have ha1 := hminle _ hamem
    have ha2 := hub _ hamem
    have hb1 := hminle _ hbmem
    have hmaxa := hmaxge _ hamem
    have hmaxb := hmaxge _ hbmem
    have hlow : foldMin TD_MAX (ts.map (fun t => t.time)) * 2 ≤
        (sortedTimes ts).getD (ts.length / 2) 0 +
          (sortedTimes ts).getD (ts.length - 1 - ts.length / 2) 0 := by omega
    have hhigh : (sortedTimes ts).getD (ts.length / 2) 0 +
        (sortedTimes ts).getD (ts.length - 1 - ts.length / 2) 0 ≤
          foldMax TD_MIN (ts.map (fun t => t.time)) * 2 := by omega
    exact divide_and_round_bounds (by omega) hlow hhigh

/-- The concrete run set used to witness C9. -/
def tsThree : List Timing := [⟨0, 0, 3, 3⟩, ⟨2, 3, 8, 5⟩, ⟨0, 8, 12, 4⟩]

/-- Witness for C9: durations `[3, 5, 4]` give fastest 3, slowest 5,
average 4, median 4. -/
theorem C9_ordering_witness :
    ((report tsThree).min_time ∈ tsThree.map (fun t => t.time) ∧
      ∀ x ∈ tsThree.map (fun t => t.time), (report tsThree).min_time ≤ x) ∧
    ((report tsThree).max_time ∈ tsThree.map (fun t => t.time) ∧
      ∀ x ∈ tsThree.map (fun t => t.time), x ≤ (report tsThree).max_time) ∧
    ((report tsThree).min_time ≤ (report tsThree).average ∧
      (report tsThree).average ≤ (report tsThree).max_time) ∧
    ((report tsThree).min_time ≤ (report tsThree).median ∧
      (report tsThree).median ≤ (report tsThree).max_time) :=
  C9_ordering tsThree (by decide) (by decide)

/-- C1 (corrected): the reported median is
`round_half_even((sorted[mid] + sorted[n-1-mid]) / 2)` in microseconds
(`mid = n / 2`, `~mid` being Python index `n - 1 - mid`); it equals the
exact pairing average whenever the two central elements' sum is even, and
for odd `n` it is exactly the unique middle element `sorted[mid]`. -/
theorem C1_median (ts : List Timing) (hne : ts ≠ []) :
    (report ts).median =
      divide_and_round ((sortedTimes ts).getD (ts.length / 2) 0 +
        (sortedTimes ts).getD (ts.length - 1 - ts.length / 2) 0) 2 ∧
    (2 ∣ ((sortedTimes ts).getD (ts.length / 2) 0 +
        (sortedTimes ts).getD (ts.length - 1 - ts.length / 2) 0) →
      ((report ts).median : ℚ) =
        (((sortedTimes ts).getD (ts.length / 2) 0 : ℚ) +
          ((sortedTimes ts).getD (ts.length - 1 - ts.length / 2) 0 : ℚ)) / 2) ∧
    (ts.length % 2 = 1 →
      (report ts).median = (sortedTimes ts).getD (ts.length / 2) 0) := by
  have hn : 1 ≤ ts.length := List.length_pos.mpr hne
  have hmed : (report ts).median =
      divide_and_round ((sortedTimes ts).getD (ts.length / 2) 0 +
        (sortedTimes ts).getD (ts.length - 1 - ts.length / 2) 0) 2 := by
    rw [report_def]
  refine ⟨hmed, fun hd => ?_, fun hodd => ?_⟩
  · rw [hmed, divide_and_round_eq_ratCast (by omega) hd]
    push_cast
    ring
  · have hidx : ts.length - 1 - ts.length / 2 = ts.length / 2 := by omega
    rw [hmed, hidx]
    exact divide_and_round_two_mul _

/-- Witness for C1 at the odd-length run set with durations `[3, 5, 4]`:
the median is the middle element `4`. -/
theorem C1_median_witness :
    (report tsThree).median =
      divide_and_round ((sortedTimes tsThree).getD (tsThree.length / 2) 0 +
        (sortedTimes tsThree).getD (tsThree.length - 1 - tsThree.length / 2) 0) 2 ∧
    (2 ∣ ((sortedTimes tsThree).getD (tsThree.length / 2) 0 +
        (sortedTimes tsThree).getD (tsThree.length - 1 - tsThree.length / 2) 0) →
      ((report tsThree).median : ℚ) =
        (((sortedTimes tsThree).getD (tsThree.length / 2) 0 : ℚ) +
          ((sortedTimes tsThree).getD (tsThree.length - 1 - tsThree.length / 2) 0 : ℚ)) / 2) ∧
    (tsThree.length % 2 = 1 →
      (report tsThree).median = (sortedTimes tsThree).getD (tsThree.length / 2) 0) :=
  C1_median tsThree (by decide)

/-- The two-record run set with durations `[0, 1]` microseconds. -/
def tsPair : List Timing := [⟨0, 0, 0, 0⟩, ⟨0, 10, 11, 1⟩]

/-- Counterexample for C1 as stated: with durations `[0, 1]` the claimed
median is `(d0 + d1) / 2 = 1/2`, but the code reports `0` (round half to
even at microsecond resolution). -/
theorem C1_median_cex :
    (report tsPair).median = 0 ∧
    ((report tsPair).median : ℚ) ≠
      (((sortedTimes tsPair).getD (tsPair.length / 2) 0 : ℚ) +
        ((sortedTimes tsPair).getD (tsPair.length - 1 - tsPair.length / 2) 0 : ℚ)) / 2 := by
  constructor
  · rfl
  · have h1 : (sortedTimes tsPair).getD (tsPair.length / 2) 0 = 1 := rfl
    have h2 : (sortedTimes tsPair).getD (tsPair.length - 1 - tsPair.length / 2) 0 = 0 := rfl
    have h3 : (report tsPair).median = 0 := rfl
    rw [h3, h1, h2]
    norm_num

/-- C2 (confirmed): when a positional filename is given and the file
decodes to a JSON object, the resolved configuration does not depend on
the command-line options at all (they are discarded wholesale), and in
the documented scenario — command line `-c 'echo a' -n 3`, file
`{"COMMAND": "echo b", "SECONDS": 1}` — resolution yields command
`echo b`, the default 8 iterations, pause 1, sequential mode. -/
theorem C2_file_overrides :
    (∀ (opts1 opts2 : List (String × String)) (f : String) (rest : List String)
        (fs : String → FileResult) (kvs : List (String × JValue)),
        fs f = .parsed (.jobj kvs) →
        spInit (.ok opts1 (f :: rest)) fs = spInit (.ok opts2 (f :: rest)) fs) ∧
    spInit (.ok [("-c", "echo a"), ("-n", "3")] ["test.json"]) fsEchoB =
      .ok { mode_prl := false, command := .jstr "echo b", runs := 8, pause := 1 } := by
  constructor
  · intro opts1 opts2 f rest fs kvs hf
    rw [spInit_args_cons, spInit_args_cons]
  · rfl

/-- Witness for C2: the independence part applied at the scenario's
command lines (with options and with none). -/
theorem C2_file_overrides_witness :
    spInit (.ok [("-c", "echo a"), ("-n", "3")] ["test.json"]) fsEchoB =
      spInit (.ok [] ["test.json"]) fsEchoB :=
  C2_file_overrides.1 [("-c", "echo a"), ("-n", "3")] [] "test.json" [] fsEchoB
    [("COMMAND", .jstr "echo b"), ("SECONDS", .jint 1)] rfl

/-- C3 (corrected): exit status is 2 for option-syntax errors, an empty
argument list, missing/unreadable/unparsable files, a value error during
option processing (non-numeral string or out-of-range value for
TIMES/SECONDS) and a missing/empty command; a TIMES/SECONDS value of a
JSON type not convertible to `int` (e.g. `null`), or a JSON file decoding
to a non-object, escapes as an unhandled exception and exits 1; a
successful resolution runs the commands and exits 0.  Every exit is 0, 1
or 2, and any non-zero exit happens with zero commands executed. -/
theorem C3_exit_codes :
    (∀ fs, spMain .err fs = { code := 2, executed := false }) ∧
    (∀ fs, spMain (.ok [] []) fs = { code := 2, executed := false }) ∧
    (∀ opts f rest fs,
      (fs f = .missing ∨ fs f = .unreadable ∨ fs f = .unparsable) →
      spMain (.ok opts (f :: rest)) fs = { code := 2, executed := false }) ∧
    (∀ opts fs cfg, procOpts defaultConfig (strOpts opts) = .done cfg →
      cfg.command.truthy = false →
      spMain (.ok opts []) fs = { code := 2, executed := false }) ∧
    (∀ opts fs, procOpts defaultConfig (strOpts opts) = .err .valueError →
      spMain (.ok opts []) fs = { code := 2, executed := false }) ∧
    (∀ opts f rest fs kvs, fs f = .parsed (.jobj kvs) →
      procOpts defaultConfig kvs = .err .typeError →
      spMain (.ok opts (f :: rest)) fs = { code := 1, executed := false }) ∧
    (∀ opts f rest fs xs, fs f = .parsed (.jarr xs) →
      spMain (.ok opts (f :: rest)) fs = { code := 1, executed := false }) ∧
    (∀ g fs cfg, spInit g fs = .ok cfg →
      spMain g fs = { code := 0, executed := true }) ∧
    (∀ g fs, (spMain g fs).executed = true → (spMain g fs).code = 0) ∧
    (∀ g fs, (spMain g fs).code = 0 ∨ (spMain g fs).code = 1 ∨
      (spMain g fs).code = 2) := by
  refine ⟨fun _ => rfl, fun _ => rfl, ?_, ?_, ?_, ?_, ?_, ?_, ?_, ?_⟩
  · intro opts f rest fs hf
    unfold spMain
    rw [spInit_args_cons]
    rcases hf with h | h | h <;> rw [h]
  · intro opts fs cfg hdone htr
    cases opts with
    | nil => rfl
    | cons o os =>
      unfold spMain
      rw [spInit_no_args _ _ (by simp), procLoop_done_falsy hdone htr]
  · intro opts fs hval
    cases opts with
    | nil => exact absurd hval (by simp [strOpts, procOpts])
    | cons o os =>
      unfold spMain
      rw [spInit_no_args _ _ (by simp), procLoop_valueError hval]
  · intro opts f rest fs kvs hf hty
    unfold spMain
    rw [spInit_args_cons, hf]
    simp only [procLoop_typeError hty]
  · intro opts f rest fs xs hf
    unfold spMain
    rw [spInit_args_cons, hf]
  · intro g fs cfg h
    unfold spMain
    rw [h]
  · intro g fs
    unfold spMain
    cases h : spInit g fs <;> simp
  · intro g fs
    unfold spMain
    cases h : spInit g fs with
    | ok cfg => simp
    | raised => simp
    | exited c =>
      rcases spInit_exited h with h0 | h2
      · subst h0; simp
      · subst h2; simp

/-- Witness for C3: a missing configuration file exits 2 with nothing
executed. -/
theorem C3_exit_codes_witness :
    spMain (.ok [] ["absent.json"]) fsNone = { code := 2, executed := false } :=
  C3_exit_codes.2.2.1 [] "absent.json" [] fsNone (Or.inl rfl)

/-- Counterexample for C3 as stated: the file `{"COMMAND": "x",
"SECONDS": null}` supplies an invalid numeric parameter — a configuration
error, which the claim maps to exit code 2 — but `int(None)` raises
`TypeError`, which escapes to the top-level handler: the process exits
1. -/
theorem C3_exit_codes_cex :
    (spMain (.ok [] ["cfg.json"]) fsNullSecs).code = 1 ∧
    (spMain (.ok [] ["cfg.json"]) fsNullSecs).code ≠ 2 := by
  constructor
  · rfl
  · simp [show (spMain (.ok [] ["cfg.json"]) fsNullSecs).code = 1 from rfl]

/-- C4 (corrected): whenever option processing, scanning the effective
options left to right, raises a value error — a TIMES/SECONDS value whose
string fails integer parsing, or a converted value leaving
`iterations < 1` or `pauseSeconds < 0` — a diagnostic is printed and the
process exits 2 with zero commands executed; in particular for `-n 0`,
`-n abc` and `-w -1`.  A help option earlier in the scan instead exits 0,
still with zero commands executed. -/
theorem C4_invalid_numeric :
    (∀ opts fs, procOpts defaultConfig (strOpts opts) = .err .valueError →
      spMain (.ok opts []) fs = { code := 2, executed := false }) ∧
    (∀ opts f rest fs kvs, fs f = .parsed (.jobj kvs) →
      procOpts defaultConfig kvs = .err .valueError →
      spMain (.ok opts (f :: rest)) fs = { code := 2, executed := false }) ∧
    spMain (.ok [("-n", "0")] []) fsNone = { code := 2, executed := false } ∧
    spMain (.ok [("-n", "abc")] []) fsNone = { code := 2, executed := false } ∧
    spMain (.ok [("-w", "-1")] []) fsNone = { code := 2, executed := false } ∧
    spMain (.ok [("-h", ""), ("-n", "0")] []) fsNone =
      { code := 0, executed := false } := by
  refine ⟨?_, ?_, rfl, rfl, rfl, rfl⟩
  · intro opts fs hval
    cases opts with
    | nil => exact absurd hval (by simp [strOpts, procOpts])
    | cons o os =>
      unfold spMain
      rw [spInit_no_args _ _ (by simp), procLoop_valueError hval]
  · intro opts f rest fs kvs hf hval
    unfold spMain
    rw [spInit_args_cons, hf]
    simp only [procLoop_valueError hval]

/-- Witness for C4: `-w xyz` triggers the value-error path and exits 2. -/
theorem C4_invalid_numeric_witness :
    spMain (.ok [("-w", "xyz")] []) fsNone = { code := 2, executed := false } :=
  C4_invalid_numeric.1 [("-w", "xyz")] fsNone rfl

/-- Counterexample for C4 as stated: the file `{"COMMAND": "x",
"TIMES": null}` supplies a non-integer value for the iterations
parameter, but the process exits 1 (uncaught `TypeError` from
`int(None)`), not 2. -/
theorem C4_invalid_numeric_cex :
    (spMain (.ok [] ["cfg.json"]) fsNullTimes).code = 1 ∧
    (spMain (.ok [] ["cfg.json"]) fsNullTimes).code ≠ 2 := by
  constructor
  · rfl
  · simp [show (spMain (.ok [] ["cfg.json"]) fsNullTimes).code = 1 from rfl]

/-- C5 (corrected): when no positional argument is supplied and every
option before `-h`/`--help` processes without error, the help request
short-circuits the rest: the process exits 0 without executing any
command, regardless of the options and values that follow. -/
theorem C5_help_short_circuit (pre rest : List (String × String)) (o v : String)
    (fs : String → FileResult) (cfg : Config)
    (ho : o = "-h" ∨ o = "--help")
    (hpre : procOpts defaultConfig (strOpts pre) = .done cfg) :
    spMain (.ok (pre ++ (o, v) :: rest) []) fs = { code := 0, executed := false } := by
  have hopts : strOpts (pre ++ (o, v) :: rest) =
      strOpts pre ++ (o, JValue.jstr v) :: strOpts rest := by
    simp [strOpts]
  have hloop : procOpts defaultConfig (strOpts (pre ++ (o, v) :: rest)) = .helpExit := by
    rw [hopts, procOpts_append, hpre]
    simp only [procOpts, procOpt_help cfg o (JValue.jstr v) ho]
  unfold spMain
  rw [spInit_no_args _ _ (by simp), procLoop_help hloop]

/-- Witness for C5: `-c x -h -w 9` prints usage and exits 0. -/
theorem C5_help_short_circuit_witness :
    spMain (.ok [("-c", "x"), ("-h", ""), ("-w", "9")] []) fsNone =
      { code := 0, executed := false } :=
  C5_help_short_circuit [("-c", "x")] [("-w", "9")] "-h" "" fsNone
    { mode_prl := false, command := .jstr "x", runs := 8, pause := 5 }
    (Or.inl rfl) rfl

/-- Counterexample for C5 as stated: the invocation `-n 0 -h` contains a
help request, but option processing reaches the invalid `-n 0` first and
the process exits 2, not 0. -/
theorem C5_help_short_circuit_cex :
    (spMain (.ok [("-n", "0"), ("-h", "")] []) fsNone).code = 2 ∧
    (spMain (.ok [("-n", "0"), ("-h", "")] []) fsNone).code ≠ 0 := by
  constructor
  · rfl
  · simp [show (spMain (.ok [("-n", "0"), ("-h", "")] []) fsNone).code = 2 from rfl]

/-- C10 (corrected): file keys matching none of the four documented names
(case-insensitively) and none of the literal option strings `-c`, `-n`,
`-w`, `-p`, `-h`, `--help` are silently ignored — dropping them changes
neither the option-loop outcome nor the resolved configuration.  (Keys
equal to the literal option strings are processed like the corresponding
command-line options instead.) -/
theorem C10_unrecognized_keys :
    (∀ kvs : List (String × JValue),
      procOpts defaultConfig (kvs.filter (fun kv => recognizedKey kv.1)) =
        procOpts defaultConfig kvs) ∧
    (∀ (opts : List (String × String)) (f : String) (rest : List String)
        (fs fs2 : String → FileResult) (kvs : List (String × JValue)),
        fs f = .parsed (.jobj kvs) →
        fs2 f = .parsed (.jobj (kvs.filter (fun kv => recognizedKey kv.1))) →
        spInit (.ok opts (f :: rest)) fs2 = spInit (.ok opts (f :: rest)) fs) := by
  have hpart1 : ∀ kvs : List (String × JValue),
      procOpts defaultConfig (kvs.filter (fun kv => recognizedKey kv.1)) =
        procOpts defaultConfig kvs :=
    fun kvs => procOpts_filter_recognized kvs defaultConfig (by decide)
  refine ⟨hpart1, ?_⟩
  intro opts f rest fs fs2 kvs hf hf2
  rw [spInit_args_cons, spInit_args_cons, hf, hf2]
  show spInit.procLoop (kvs.filter (fun kv => recognizedKey kv.1)) = spInit.procLoop kvs
  unfold spInit.procLoop
  rw [hpart1 kvs]

/-- Witness for C10: dropping the unrecognized key `FOO` from
`{"COMMAND": "x", "FOO": null}` leaves the resolution unchanged. -/
theorem C10_unrecognized_keys_witness :
    spInit (.ok [] ["cfg.json"]) fsCmdOnly = spInit (.ok [] ["cfg.json"]) fsFoo :=
  C10_unrecognized_keys.2 [] "cfg.json" [] fsFoo fsCmdOnly
    [("COMMAND", .jstr "x"), ("FOO", .jnull)] rfl rfl

/-- Counterexample for C10 as stated: the key `"-h"` matches none of
COMMAND/TIMES/SECONDS/PARALLEL, yet it is not ignored — it triggers the
help branch, so resolution exits 0 instead of producing the configuration
that the same file without that key yields. -/
theorem C10_unrecognized_keys_cex :
    spInit (.ok [] ["cfg.json"]) fsHelpKey = .exited 0 ∧
    spInit (.ok [] ["cfg.json"]) fsCmdOnly =
      .ok { mode_prl := false, command := .jstr "x", runs := 8, pause := 5 } ∧
    InitOutcome.exited 0 ≠
      InitOutcome.ok { mode_prl := false, command := .jstr "x", runs := 8, pause := 5 } :=
  ⟨rfl, rfl, fun h => InitOutcome.noConfusion h⟩
